import Mathlib

/-!
Shallow embedding of the concept extraction and reconciliation engine of
`financetoolkit/edgar_model.py`.

The Python module takes a raw XBRL fact set (concept name → unit label →
list of observation records) and produces, per canonical field of a
statement-type dictionary, a resolved series (period end-date → value),
then assembles the rectangular statement table.

Modelling conventions:
  * Python dictionaries keyed by strings are modelled as association lists
    `List (String × _)`; lookup is `List.lookup` (first match, keys are
    unique in the source data).
  * A raw observation record models `entry.get("start", "")`,
    `entry.get("end", "")`, `entry.get("val", 0)`, `entry.get("form", "")`,
    `entry.get("filed", "")`: missing string fields become `""`, a missing
    value becomes `none` and is defaulted to `0` at use site, exactly as
    the `.get` defaults do.
  * Python string comparison (used by `filings.sort(key=...)` and
    `sorted(all_dates)`) is lexicographic on code points; it is modelled
    by `strLt` below, a lexicographic comparison of the character lists.
  * `datetime.strptime(s, "%Y-%m-%d")` is modelled by `strptime`:
    exactly four digits for the year, one or two digits for month and day
    (CPython's `%m`/`%d` patterns accept both), the whole string must be
    consumed, and the resulting calendar date must be valid
    (`datetime` raises `ValueError` on day-out-of-range or year 0).
  * `(end_dt - start_dt).days` is the difference of proleptic Gregorian
    ordinals, modelled by `toOrdinal`.
-/

/-- A proleptic Gregorian calendar date, as validated by `datetime`. -/
structure Date where
  year : Nat
  month : Nat
  day : Nat
deriving DecidableEq, Repr

def isLeapYear (y : Nat) : Bool :=
  y % 4 == 0 && (y % 100 != 0 || y % 400 == 0)

def daysInMonth (y m : Nat) : Nat :=
  if m = 2 then (if isLeapYear y then 29 else 28)
  else if m = 4 ∨ m = 6 ∨ m = 9 ∨ m = 11 then 30
  else 31

def daysBeforeYear (y : Nat) : Nat :=
  365 * (y - 1) + (y - 1) / 4 - (y - 1) / 100 + (y - 1) / 400

def daysBeforeMonth (y m : Nat) : Nat :=
  (List.range (m - 1)).foldl (fun acc i => acc + daysInMonth y (i + 1)) 0

/-- Proleptic Gregorian ordinal of a date (0001-01-01 is day 1), as used by
`datetime` subtraction. -/
def toOrdinal (d : Date) : Nat :=
  daysBeforeYear d.year + daysBeforeMonth d.year d.month + d.day

/-- Day difference `(end_dt - start_dt).days`. -/
def dateDiffDays (s e : Date) : Int :=
  (toOrdinal e : Int) - (toOrdinal s : Int)

def digitVal (c : Char) : Option Nat :=
  if c.isDigit then some (c.toNat - 48) else none

/-- Parse one or two leading digits (greedy), as CPython's `%m`/`%d`
patterns do; returns the value and the remaining characters. -/
def parse2 : List Char → Option (Nat × List Char)
  | [] => none
  | [c] => (digitVal c).map (fun d => (d, []))
  | c1 :: c2 :: rest =>
    match digitVal c1, digitVal c2 with
    | some d1, some d2 => some (10 * d1 + d2, rest)
    | some d1, none => some (d1, c2 :: rest)
    | none, _ => none

/-- Model of `datetime.strptime(s, "%Y-%m-%d")`: four year digits, dash,
one or two month digits, dash, one or two day digits, nothing left over,
and the result must be a valid `datetime` calendar date. Returns `none`
exactly when the Python call raises `ValueError`. -/
def strptime (s : String) : Option Date :=
  match s.toList with
  | y1 :: y2 :: y3 :: y4 :: '-' :: rest =>
    match digitVal y1, digitVal y2, digitVal y3, digitVal y4 with
    | some a, some b, some c, some d =>
      let year := 1000 * a + 100 * b + 10 * c + d
      match parse2 rest with
      | some (month, '-' :: rest2) =>
        match parse2 rest2 with
        | some (day, []) =>
          if 1 ≤ year ∧ 1 ≤ month ∧ month ≤ 12 ∧ 1 ≤ day ∧ day ≤ daysInMonth year month
          then some ⟨year, month, day⟩ else none
        | _ => none
      | _ => none
    | _, _, _, _ => none
  | _ => none

/-- One reported data point, with the `.get` defaults of the source applied:
`start_date`/`end_date`/`form`/`filed` are `""` when the key is missing,
`val` is `none` when missing (defaulted to `0` at use site). -/
structure RawObservation where
  start_date : String
  end_date : String
  val : Option Int
  form : String
  filed : String
deriving DecidableEq, Repr

/-- `concept_data["units"]`: unit label → list of observations. -/
abbrev UnitGroups := List (String × List RawObservation)

/-- The `us-gaap` fact set: concept name → unit groups. -/
abbrev Facts := List (String × UnitGroups)

/-- Lexicographic order on character lists by code point, the order Python
uses to compare strings. -/
def charsLt : List Char → List Char → Bool
  | [], [] => false
  | [], _ :: _ => true
  | _ :: _, [] => false
  | a :: as, b :: bs =>
    if a < b then true else if b < a then false else charsLt as bs

/-- Python string `<`. -/
def strLt (a b : String) : Bool := charsLt a.toList b.toList

/-- The fixed unit priority list of the source. -/
def unitPriority : List String := ["USD", "USD/shares", "shares", "pure"]

/-- The `for key in [...]: if key in units: unit_key = key; break` loop. -/
def selectUnitKey (units : UnitGroups) : Option String :=
  unitPriority.find? (fun key => (units.lookup key).isSome)

/-- `form_filter = "10-Q" if quarter else "10-K"`. -/
def form_filter (quarter : Bool) : String :=
  if quarter then "10-Q" else "10-K"

/-- The per-entry keep/drop decision of the extraction loop: form must equal
the filter exactly, the end date must be non-empty, and in annual mode an
entry whose start and end dates both parse with a duration below 350 days
is dropped (unparseable dates fall through leniently). -/
def passesFilters (quarter : Bool) (o : RawObservation) : Bool :=
  if o.form != form_filter quarter then false
  else if o.end_date == "" then false
  else if !quarter && o.start_date != "" && o.end_date != "" then
    match strptime o.start_date, strptime o.end_date with
    | some s, some e => if dateDiffDays s e < 350 then false else true
    | _, _ => true
  else true

/-- Stable insertion of a `(filed_date, value)` pair into a list sorted by
filed date descending: an element already in place stays before `x` only
when it is strictly greater, so equal keys keep input order, matching
Python's stable `sort(key=..., reverse=True)`. -/
def insertFiledDesc (x : String × Int) : List (String × Int) → List (String × Int)
  | [] => [x]
  | y :: ys => if strLt x.1 y.1 then y :: insertFiledDesc x ys else x :: y :: ys

/-- `filings.sort(key=lambda x: x[0], reverse=True)`. -/
def sortFiledDesc : List (String × Int) → List (String × Int)
  | [] => []
  | x :: xs => insertFiledDesc x (sortFiledDesc xs)

/-- `filings.sort(...); field_data[end_date] = filings[0][1]`: the value of
the entry with the greatest filed date (first in input order on ties). -/
def dedupe (filings : List (String × Int)) : Option Int :=
  (sortFiledDesc filings).head?.map Prod.snd

/-- Append a `(filed, val)` pair to the group of key `k`, creating the group
at the end when absent: the behaviour of a Python dict of lists. -/
def insertGroup (gs : List (String × List (String × Int))) (k : String)
    (v : String × Int) : List (String × List (String × Int)) :=
  match gs with
  | [] => [(k, [v])]
  | (k', vs) :: rest =>
    if k' == k then (k', vs ++ [v]) :: rest else (k', vs) :: insertGroup rest k v

/-- The `filing_entries` dict: surviving entries grouped by end date, keys in
first-occurrence order, group members in input order, each entry reduced to
`(entry.get("filed", ""), entry.get("val", 0))`. -/
def groupByEnd (l : List RawObservation) : List (String × List (String × Int)) :=
  l.foldl (fun gs o => insertGroup gs o.end_date (o.filed, o.val.getD 0)) []

/-- Form/duration filtering, grouping by end date and per-period
deduplication for the entry list of one selected unit. -/
def extractEntries (quarter : Bool) (entries : List RawObservation) :
    List (String × Int) :=
  (groupByEnd (entries.filter (passesFilters quarter))).filterMap
    (fun g => (dedupe g.2).map (fun v => (g.1, v)))

/-- The resolved fragment contributed by one concept: select the unit by
fixed priority, then filter, group and deduplicate its entries; a concept
with no recognised unit yields nothing. -/
def extractConcept (quarter : Bool) (concept_data : UnitGroups) : List (String × Int) :=
  match selectUnitKey concept_data with
  | none => []
  | some key => extractEntries quarter ((concept_data.lookup key).getD [])

/-- The fragment a synonym yields against the fact set: empty when the
concept is absent. -/
def conceptFragment (quarter : Bool) (facts : Facts) (concept_name : String) :
    List (String × Int) :=
  match facts.lookup concept_name with
  | none => []
  | some concept_data => extractConcept quarter concept_data

/-- The synonym loop of `_extract_financial_items` for one field: try each
concept name in order; the first one that yields a non-empty fragment wins
and the loop stops (`if field_data: break`). -/
def resolveField (quarter : Bool) (facts : Facts) : List String → List (String × Int)
  | [] => []
  | c :: rest =>
    match facts.lookup c with
    | none => resolveField quarter facts rest
    | some concept_data =>
      let field_data := extractConcept quarter concept_data
      if field_data.isEmpty then resolveField quarter facts rest else field_data

/-- `_extract_financial_items`: one resolved series per canonical field, in
the declaration order of the concept dictionary. -/
def _extract_financial_items (facts : Facts)
    (concept_mapping : List (String × List String)) (quarter : Bool) :
    List (String × List (String × Int)) :=
  concept_mapping.map (fun p => (p.1, resolveField quarter facts p.2))

/-- Union of all end dates across the resolved series (`all_dates` set of
the source); duplicates removed. -/
def all_dates (items : List (String × List (String × Int))) : List String :=
  ((items.map (fun p => p.2.map Prod.fst)).flatten).dedup

/-- Ascending insertion by `strLt`; an element already in place stays before
`d` only when strictly smaller. -/
def insertAsc (d : String) : List String → List String
  | [] => [d]
  | y :: ys => if strLt y d then y :: insertAsc d ys else d :: y :: ys

/-- `sorted(...)` on strings: ascending lexicographic insertion sort. -/
def sortAsc : List String → List String
  | [] => []
  | x :: xs => insertAsc x (sortAsc xs)

/-- `sorted_dates = sorted(all_dates)`. -/
def sorted_dates (items : List (String × List (String × Int))) : List String :=
  sortAsc (all_dates items)

/-- The `data` dict turned into the row-major frame: one row per field in
declaration order, one cell per sorted date,
`dates_values.get(date, 0)` as the value. -/
def buildData (items : List (String × List (String × Int))) :
    List (String × List (String × Int)) :=
  items.map (fun p =>
    (p.1, (sorted_dates items).map (fun date => (date, (p.2.lookup date).getD 0))))

/-- The label `pd.PeriodIndex([date], freq="Q" if quarter else "Y")` gives a
well-formed ISO date column: the year, plus the quarter number in quarterly
mode. For a malformed date pandas raises; the model keeps the raw string,
a case no caller reaches (every date here survived the non-empty filter on
real ISO data). -/
def periodLabel (quarter : Bool) (date : String) : String :=
  match date.toList with
  | y1 :: y2 :: y3 :: y4 :: _ :: m1 :: m2 :: _ =>
    if quarter then
      match digitVal m1, digitVal m2 with
      | some d1, some d2 =>
        String.mk [y1, y2, y3, y4] ++ "Q" ++ toString ((10 * d1 + d2 - 1) / 3 + 1)
      | _, _ => date
    else String.mk [y1, y2, y3, y4]
  | _ => date

/-- `~df.columns.duplicated()` column selection: walk the columns left to
right, keeping a date only when its period label has not been seen yet. -/
def dedupLabelsAux (quarter : Bool) (seen : List String) :
    List String → List String
  | [] => []
  | d :: rest =>
    if periodLabel quarter d ∈ seen then dedupLabelsAux quarter seen rest
    else d :: dedupLabelsAux quarter (periodLabel quarter d :: seen) rest

/-- The date columns that survive the duplicate-period drop
`df.loc[:, ~df.columns.duplicated()]`. -/
def dedupByLabel (quarter : Bool) (ds : List String) : List String :=
  dedupLabelsAux quarter [] ds

/-- The one error `get_financial_statement` raises, a `ValueError` whose
message reads: Please choose either balance, income, or cashflow for the
statement parameter. -/
inductive EdgarError where
  | invalidStatement
deriving DecidableEq, Repr

/-- The caller-visible result: either the no-data marker frame (an empty
`DataFrame` whose only column is the error code, which depends on the
`fallback` flag) or the assembled table with period-labelled columns. -/
inductive StatementFrame where
  | noData (fallback : Bool)
  | table (columns : List String) (rows : List (String × List Int))
deriving DecidableEq, Repr
/-- `INCOME_CONCEPTS` of the source, verbatim. -/
def INCOME_CONCEPTS : List (String × List String) := [
  ("Revenues", ["Revenues", "RevenueFromContractWithCustomerExcludingAssessedTax", "RevenueFromContractWithCustomerIncludingAssessedTax", "SalesRevenueNet", "SalesRevenueGoodsNet", "SalesRevenueServicesNet", "RevenueNet"]),
  ("CostOfRevenue", ["CostOfRevenue", "CostOfGoodsAndServicesSold", "CostOfGoodsSold", "CostOfGoodsAndServiceExcludingDepreciationDepletionAndAmortization"]),
  ("GrossProfit", ["GrossProfit"]),
  ("ResearchAndDevelopmentExpense", ["ResearchAndDevelopmentExpense", "ResearchAndDevelopmentExpenseExcludingAcquiredInProcessCost"]),
  ("SellingGeneralAndAdministrativeExpense", ["SellingGeneralAndAdministrativeExpense", "SellingAndMarketingExpense", "GeneralAndAdministrativeExpense"]),
  ("OperatingExpenses", ["OperatingExpenses", "CostsAndExpenses"]),
  ("OperatingIncomeLoss", ["OperatingIncomeLoss"]),
  ("InterestExpense", ["InterestExpense", "InterestExpenseDebt"]),
  ("InterestIncome", ["InterestIncome", "InvestmentIncomeInterest"]),
  ("IncomeTaxExpenseBenefit", ["IncomeTaxExpenseBenefit"]),
  ("NetIncomeLoss", ["NetIncomeLoss", "ProfitLoss", "NetIncomeLossAvailableToCommonStockholdersBasic"]),
  ("EarningsPerShareBasic", ["EarningsPerShareBasic"]),
  ("EarningsPerShareDiluted", ["EarningsPerShareDiluted"]),
  ("WeightedAverageNumberOfSharesOutstandingBasic", ["WeightedAverageNumberOfSharesOutstandingBasic", "CommonStockSharesOutstanding"]),
  ("WeightedAverageNumberOfDilutedSharesOutstanding", ["WeightedAverageNumberOfDilutedSharesOutstanding"]),
  ("DepreciationAndAmortization", ["DepreciationDepletionAndAmortization", "DepreciationAmortizationAndAccretionNet", "Depreciation"]),
  ("IncomeBeforeTax", ["IncomeLossFromContinuingOperationsBeforeIncomeTaxesExtraordinaryItemsNoncontrollingInterest", "IncomeLossFromContinuingOperationsBeforeIncomeTaxesDomestic", "IncomeLossFromContinuingOperationsBeforeIncomeTaxesMinorityInterestAndIncomeLossFromEquityMethodInvestments"]),
  ("NetIncomeFromContinuingOperations", ["IncomeLossFromContinuingOperations"]),
  ("OtherIncomeExpenseNet", ["NonoperatingIncomeExpense", "OtherNonoperatingIncomeExpense"])
]

/-- `BALANCE_CONCEPTS` of the source, verbatim. -/
def BALANCE_CONCEPTS : List (String × List String) := [
  ("CashAndCashEquivalents", ["CashAndCashEquivalentsAtCarryingValue", "CashCashEquivalentsAndShortTermInvestments", "Cash"]),
  ("ShortTermInvestments", ["ShortTermInvestments", "AvailableForSaleSecuritiesCurrent", "MarketableSecuritiesCurrent"]),
  ("AccountsReceivableNet", ["AccountsReceivableNetCurrent", "AccountsReceivableNet", "ReceivablesNetCurrent"]),
  ("Inventories", ["InventoryNet", "InventoryFinishedGoods"]),
  ("OtherCurrentAssets", ["OtherAssetsCurrent", "PrepaidExpenseAndOtherAssetsCurrent"]),
  ("TotalCurrentAssets", ["AssetsCurrent"]),
  ("PropertyPlantAndEquipmentNet", ["PropertyPlantAndEquipmentNet", "PropertyPlantAndEquipmentAndFinanceLeaseRightOfUseAssetAfterAccumulatedDepreciationAndAmortization"]),
  ("Goodwill", ["Goodwill"]),
  ("IntangibleAssetsNet", ["IntangibleAssetsNetExcludingGoodwill", "FiniteLivedIntangibleAssetsNet"]),
  ("LongTermInvestments", ["LongTermInvestments", "MarketableSecuritiesNoncurrent", "AvailableForSaleSecuritiesNoncurrent"]),
  ("OtherNonCurrentAssets", ["OtherAssetsNoncurrent"]),
  ("TotalNonCurrentAssets", ["AssetsNoncurrent"]),
  ("TotalAssets", ["Assets"]),
  ("AccountsPayable", ["AccountsPayableCurrent", "AccountsPayableAndAccruedLiabilitiesCurrent"]),
  ("ShortTermDebt", ["ShortTermBorrowings", "CommercialPaper"]),
  ("DeferredRevenueCurrent", ["DeferredRevenueCurrent", "ContractWithCustomerLiabilityCurrent"]),
  ("OtherCurrentLiabilities", ["OtherLiabilitiesCurrent", "AccruedLiabilitiesCurrent"]),
  ("TotalCurrentLiabilities", ["LiabilitiesCurrent"]),
  ("LongTermDebt", ["LongTermDebtNoncurrent", "LongTermDebt", "LongTermDebtAndCapitalLeaseObligations"]),
  ("OtherNonCurrentLiabilities", ["OtherLiabilitiesNoncurrent"]),
  ("TotalNonCurrentLiabilities", ["LiabilitiesNoncurrent"]),
  ("TotalLiabilities", ["Liabilities"]),
  ("CommonStockValue", ["CommonStocksIncludingAdditionalPaidInCapital", "CommonStockValue"]),
  ("RetainedEarnings", ["RetainedEarningsAccumulatedDeficit"]),
  ("AccumulatedOtherComprehensiveIncomeLoss", ["AccumulatedOtherComprehensiveIncomeLossNetOfTax"]),
  ("TotalStockholdersEquity", ["StockholdersEquity", "StockholdersEquityIncludingPortionAttributableToNoncontrollingInterest"]),
  ("TotalLiabilitiesAndStockholdersEquity", ["LiabilitiesAndStockholdersEquity"]),
  ("CommonSharesOutstanding", ["CommonStockSharesOutstanding", "EntityCommonStockSharesOutstanding"]),
  ("TreasuryStock", ["TreasuryStockValue"]),
  ("AdditionalPaidInCapital", ["AdditionalPaidInCapitalCommonStock", "AdditionalPaidInCapital"])
]

/-- `CASHFLOW_CONCEPTS` of the source, verbatim. -/
def CASHFLOW_CONCEPTS : List (String × List String) := [
  ("NetIncomeLoss", ["NetIncomeLoss", "ProfitLoss"]),
  ("DepreciationAndAmortization", ["DepreciationDepletionAndAmortization", "DepreciationAmortizationAndAccretionNet", "Depreciation"]),
  ("StockBasedCompensation", ["ShareBasedCompensation", "StockBasedCompensation"]),
  ("DeferredIncomeTax", ["DeferredIncomeTaxExpenseBenefit", "DeferredIncomeTaxesAndTaxCredits"]),
  ("ChangeInAccountsReceivable", ["IncreaseDecreaseInAccountsReceivable"]),
  ("ChangeInInventories", ["IncreaseDecreaseInInventories"]),
  ("ChangeInAccountsPayable", ["IncreaseDecreaseInAccountsPayable", "IncreaseDecreaseInAccountsPayableAndAccruedLiabilities"]),
  ("OtherOperatingActivities", ["OtherOperatingActivitiesCashFlowStatement", "OtherNoncashIncomeExpense"]),
  ("NetCashFromOperatingActivities", ["NetCashProvidedByUsedInOperatingActivities"]),
  ("CapitalExpenditures", ["PaymentsToAcquirePropertyPlantAndEquipment", "PaymentsForCapitalImprovements"]),
  ("PurchaseOfInvestments", ["PaymentsToAcquireInvestments", "PaymentsToAcquireAvailableForSaleSecuritiesDebt", "PaymentsToAcquireMarketableSecurities"]),
  ("SaleOfInvestments", ["ProceedsFromSaleAndMaturityOfMarketableSecurities", "ProceedsFromMaturitiesPrepaymentsAndCallsOfAvailableForSaleSecurities", "ProceedsFromSaleOfAvailableForSaleSecuritiesDebt"]),
  ("Acquisitions", ["PaymentsToAcquireBusinessesNetOfCashAcquired", "PaymentsToAcquireBusinessesAndInterestInAffiliates"]),
  ("OtherInvestingActivities", ["PaymentsForProceedsFromOtherInvestingActivities", "OtherInvestingActivitiesCashFlowStatement"]),
  ("NetCashFromInvestingActivities", ["NetCashProvidedByUsedInInvestingActivities"]),
  ("DebtRepayment", ["RepaymentsOfLongTermDebt", "RepaymentsOfDebt"]),
  ("DebtIssuance", ["ProceedsFromIssuanceOfLongTermDebt", "ProceedsFromDebtNetOfIssuanceCosts"]),
  ("CommonStockRepurchased", ["PaymentsForRepurchaseOfCommonStock", "PaymentsForRepurchaseOfEquity"]),
  ("DividendsPaid", ["PaymentsOfDividendsCommonStock", "PaymentsOfDividends"]),
  ("OtherFinancingActivities", ["ProceedsFromPaymentsForOtherFinancingActivities", "OtherFinancingActivitiesCashFlowStatement"]),
  ("NetCashFromFinancingActivities", ["NetCashProvidedByUsedInFinancingActivities"]),
  ("NetChangeInCash", ["CashCashEquivalentsRestrictedCashAndRestrictedCashEquivalentsPeriodIncreaseDecreaseIncludingExchangeRateEffect", "CashAndCashEquivalentsPeriodIncreaseDecrease"]),
  ("CashAtEndOfPeriod", ["CashCashEquivalentsRestrictedCashAndRestrictedCashEquivalents", "CashAndCashEquivalentsAtCarryingValue"])
]

/-- The `{"income": ..., "balance": ..., "cashflow": ...}[statement]`
lookup; only reached for a valid statement string. -/
def concepts_for (statement : String) : List (String × List String) :=
  if statement = "income" then INCOME_CONCEPTS
  else if statement = "balance" then BALANCE_CONCEPTS
  else CASHFLOW_CONCEPTS

/-- `get_financial_statement`, from the point where the company fact set is
in hand (the network fetch and its two failure frames are the excluded
collaborator): validate the statement argument (raising the `ValueError`
otherwise), extract, and assemble the table over the period-deduplicated
sorted date columns. -/
def get_financial_statement (facts : Facts) (statement : String)
    (quarter : Bool) (fallback : Bool) : Except EdgarError StatementFrame :=
  if statement ∉ (["balance", "income", "cashflow"] : List String) then
    Except.error EdgarError.invalidStatement
  else
    let items := _extract_financial_items facts (concepts_for statement) quarter
    let ds := sorted_dates items
    if ds.isEmpty then Except.ok (StatementFrame.noData fallback)
    else
      let kept := dedupByLabel quarter ds
      Except.ok (StatementFrame.table
        (kept.map (periodLabel quarter))
        (items.map (fun p => (p.1, kept.map (fun date => (p.2.lookup date).getD 0)))))

/-! ### Concrete inputs used by the witness theorems -/

/-- The spec's two-synonym example: `Revenues` and its second synonym both
present; the first synonym's fragment is used alone. -/
def factsC1 : Facts :=
  [("Revenues",
      [("USD",
        [⟨"2019-09-29", "2020-09-26", some 274515000000, "10-K", "2020-10-30"⟩])]),
   ("RevenueFromContractWithCustomerExcludingAssessedTax",
      [("USD",
        [⟨"2019-09-29", "2020-09-26", some 999, "10-K", "2020-10-30"⟩,
         ⟨"2018-09-30", "2019-09-28", some 888, "10-K", "2019-10-31"⟩])])]

def unitsC4 : UnitGroups :=
  [("USD",
    [⟨"2022-10-01", "2023-09-30", some 100, "10-K", "2023-11-03"⟩,
     ⟨"2023-04-01", "2023-06-30", some 25, "10-Q", "2023-08-01"⟩])]

def unitsC5 : UnitGroups :=
  [("shares", [⟨"", "2023-09-30", some 15, "10-K", "2023-11-03"⟩]),
   ("USD", [⟨"", "2023-09-30", some 99, "10-K", "2023-11-03"⟩])]

def unitsC5n : UnitGroups :=
  [("EUR", [⟨"", "2023-09-30", some 3, "10-K", "2023-11-03"⟩])]

def factsC9 : Facts :=
  [("Assets",
    [("USD", [⟨"2022-10-01", "2023-09-30", some 5, "10-K", "2023-11-03"⟩])])]

/-- Replace a missing value by an explicit reported `0`, the way
`entry.get("val", 0)` reads it. -/
def with_val_default (o : RawObservation) : RawObservation :=
  { o with val := some (o.val.getD 0) }

/-! ### Order facts about the lexicographic string comparison -/

theorem charsLt_irrefl : ∀ (a : List Char), charsLt a a = false
  | [] => by simp [charsLt]
  | c :: cs => by simp [charsLt, lt_irrefl, charsLt_irrefl cs]

theorem charsLt_asymm : ∀ (a b : List Char),
    charsLt a b = true → charsLt b a = false
  | [], [] => by simp [charsLt]
  | [], _ :: _ => by simp [charsLt]
  | _ :: _, [] => by simp [charsLt]
  | a :: as, b :: bs => by
    intro h
    by_cases hab : a < b
    · have hba : ¬ b < a := lt_asymm hab
      simp [charsLt, hab, hba]
    · by_cases hba : b < a
      · simp [charsLt, hab, hba] at h
      · have h' : charsLt as bs = true := by simpa [charsLt, hab, hba] using h
        simpa [charsLt, hab, hba] using charsLt_asymm as bs h'

theorem charsLt_conn : ∀ (a b : List Char),
    charsLt a b = false → charsLt b a = false → a = b
  | [], [] => by simp
  | [], _ :: _ => by simp [charsLt]
  | _ :: _, [] => by simp [charsLt]
  | a :: as, b :: bs => by
    intro h1 h2
    by_cases hab : a < b
    · simp [charsLt, hab] at h1
    · by_cases hba : b < a
      · simp [charsLt, hba] at h2
      · have hhead : a = b := le_antisymm (le_of_not_lt hba) (le_of_not_lt hab)
        have t1 : charsLt as bs = false := by simpa [charsLt, hab, hba] using h1
        have t2 : charsLt bs as = false := by
          simpa [charsLt, hab, hba, hhead] using h2
        rw [hhead, charsLt_conn as bs t1 t2]

theorem charsLt_ge_trans : ∀ (a b c : List Char),
    charsLt a b = false → charsLt b c = false → charsLt a c = false
  | [], [], _ => fun _ h2 => h2
  | [], _ :: _, _ => by simp [charsLt]
  | _ :: _, _, [] => by simp [charsLt]
  | _ :: _, [], _ :: _ => by simp [charsLt]
  | a :: as, b :: bs, c :: cs => by
    intro h1 h2
    by_cases hab : a < b
    · simp [charsLt, hab] at h1
    · by_cases hbc : b < c
      · simp [charsLt, hbc] at h2
      · have hba : b ≤ a := le_of_not_lt hab
        have hcb : c ≤ b := le_of_not_lt hbc
        have hac : ¬ a < c := not_lt.mpr (le_trans hcb hba)
        by_cases hca : c < a
        · simp [charsLt, hac, hca]
        · have hca' : a = c := le_antisymm (le_of_not_lt hca) (le_trans hcb hba)
          have hhab : a = b := le_antisymm (by rw [hca']; exact hcb) hba
          have hbc' : b = c := by rw [← hhab, hca']
          have hnba : ¬ b < a := by rw [hhab]; exact lt_irrefl b
          have hncb : ¬ c < b := by rw [hbc']; exact lt_irrefl c
          have t1 : charsLt as bs = false := by
            simpa [charsLt, hab, hnba] using h1
          have t2 : charsLt bs cs = false := by
            simpa [charsLt, hbc, hncb] using h2
          simp [charsLt, hac, hca, charsLt_ge_trans as bs cs t1 t2]

theorem strLt_irrefl (a : String) : strLt a a = false := charsLt_irrefl _

theorem strLt_asymm {a b : String} (h : strLt a b = true) : strLt b a = false :=
  charsLt_asymm _ _ h

theorem strLt_conn {a b : String} (h1 : strLt a b = false)
    (h2 : strLt b a = false) : a = b := by
  have := charsLt_conn _ _ h1 h2
  cases a; cases b
  simpa [String.toList] using congrArg String.mk this

theorem strLt_ge_trans {a b c : String} (h1 : strLt a b = false)
    (h2 : strLt b c = false) : strLt a c = false :=
  charsLt_ge_trans _ _ _ h1 h2

/-! ### The deduplicating sort by filed date -/

theorem mem_insertFiledDesc (x a : String × Int) :
    ∀ (l : List (String × Int)), a ∈ insertFiledDesc x l ↔ a = x ∨ a ∈ l
  | [] => by simp [insertFiledDesc]
  | y :: ys => by
    by_cases h : strLt x.1 y.1 = true
    · simp [insertFiledDesc, h, mem_insertFiledDesc x a ys]
      tauto
    · simp [insertFiledDesc, h]

theorem sortFiledDesc_head : ∀ (l : List (String × Int)), l ≠ [] →
    ∃ w, (sortFiledDesc l).head? = some w ∧ w ∈ l ∧
      ∀ x ∈ l, strLt w.1 x.1 = false
  | [], h => absurd rfl h
  | x :: xs, _ => by
    by_cases hxs : xs = []
    · subst hxs
      exact ⟨x, by simp [sortFiledDesc, insertFiledDesc], by simp,
        by simp [strLt_irrefl]⟩
    · obtain ⟨w', hhead, hmem, hmax⟩ := sortFiledDesc_head xs hxs
      obtain ⟨t, ht⟩ : ∃ t, sortFiledDesc xs = w' :: t := by
        cases hs : sortFiledDesc xs with
        | nil => rw [hs] at hhead; simp at hhead
        | cons h' t' =>
          rw [hs] at hhead; simp at hhead
          exact ⟨t', by rw [hhead]⟩
      by_cases hcmp : strLt x.1 w'.1 = true
      · refine ⟨w', ?_, List.mem_cons_of_mem _ hmem, ?_⟩
        · simp [sortFiledDesc, ht, insertFiledDesc, hcmp]
        · intro y hy
          rcases List.mem_cons.mp hy with rfl | hy'
          · exact strLt_asymm hcmp
          · exact hmax y hy'
      · refine ⟨x, ?_, List.mem_cons_self x xs, ?_⟩
        · simp [sortFiledDesc, ht, insertFiledDesc, hcmp]
        · intro y hy
          rcases List.mem_cons.mp hy with rfl | hy'
          · exact strLt_irrefl _
          · exact strLt_ge_trans (a := x.1) (b := w'.1)
              (by simpa using hcmp) (hmax y hy')

/-- Deduplication helper: when the group holds an entry `w` whose filed date
is strictly above every other entry's, the group resolves to `w`'s value,
whatever the order of the group. -/
theorem dedupe_of_strict_max {l : List (String × Int)} {w : String × Int}
    (hmem : w ∈ l) (hmax : ∀ x ∈ l, x ≠ w → strLt x.1 w.1 = true) :
    dedupe l = some w.2 := by
  have hne : l ≠ [] := by rintro rfl; simp at hmem
  obtain ⟨h, hhead, hhm, hmax'⟩ := sortFiledDesc_head l hne
  by_cases hw : h = w
  · subst hw
    simp [dedupe, hhead]
  · have h1 : strLt h.1 w.1 = true := hmax h hhm hw
    have h2 : strLt h.1 w.1 = false := hmax' w hmem
    rw [h1] at h2; cases h2

/-- Deduplication helper: a non-empty group always resolves to the value of
a member whose filed date is not below any other member's. -/
theorem dedupe_max_filed {l : List (String × Int)} (hne : l ≠ []) :
    ∃ w ∈ l, dedupe l = some w.2 ∧ ∀ x ∈ l, strLt w.1 x.1 = false := by
  obtain ⟨w, hhead, hmem, hmax⟩ := sortFiledDesc_head l hne
  exact ⟨w, hmem, by simp [dedupe, hhead], hmax⟩

/-! ### Provenance through grouping and extraction -/

theorem mem_insertGroup :
    ∀ (gs : List (String × List (String × Int))) (k : String)
      (v : String × Int) (d : String) (fs : List (String × Int))
      (p : String × Int),
      (d, fs) ∈ insertGroup gs k v → p ∈ fs →
      (∃ fs₀, (d, fs₀) ∈ gs ∧ p ∈ fs₀) ∨ (d = k ∧ p = v)
  | [], k, v, d, fs, p => by
    intro hg hp
    simp [insertGroup] at hg
    obtain ⟨rfl, rfl⟩ := hg
    right
    simpa using hp
  | (k', vs) :: rest, k, v, d, fs, p => by
    intro hg hp
    by_cases hk : k' == k
    · simp only [insertGroup, hk, if_true] at hg
      rcases List.mem_cons.mp hg with heq | hrest
      · obtain ⟨rfl, rfl⟩ := Prod.mk.injEq .. ▸ heq
        rcases List.mem_append.mp hp with hvs | hv
        · exact .inl ⟨vs, List.mem_cons_self _ _, hvs⟩
        · right
          exact ⟨eq_of_beq hk, by simpa using hv⟩
      · exact .inl ⟨fs, List.mem_cons_of_mem _ hrest, hp⟩
    · simp only [insertGroup, hk, if_false] at hg
      rcases List.mem_cons.mp hg with heq | hrest
      · obtain ⟨rfl, rfl⟩ := Prod.mk.injEq .. ▸ heq
        exact .inl ⟨fs, List.mem_cons_self _ _, hp⟩
      · rcases mem_insertGroup rest k v d fs p hrest hp with ⟨fs₁, h1, h2⟩ | hkv
        · exact .inl ⟨fs₁, List.mem_cons_of_mem _ h1, h2⟩
        · exact .inr hkv

theorem groupByEnd_go_mem :
    ∀ (l : List RawObservation) (acc : List (String × List (String × Int)))
      (d : String) (fs : List (String × Int)) (p : String × Int),
      (d, fs) ∈ l.foldl
        (fun gs o => insertGroup gs o.end_date (o.filed, o.val.getD 0)) acc →
      p ∈ fs →
      (∃ fs₀, (d, fs₀) ∈ acc ∧ p ∈ fs₀) ∨
        ∃ o ∈ l, o.end_date = d ∧ p = (o.filed, o.val.getD 0)
  | [], _acc, _d, fs, _p => fun hg hp => .inl ⟨fs, hg, hp⟩
  | o :: rest, acc, d, fs, p => fun hg hp => by
    have hrec := groupByEnd_go_mem rest
      (insertGroup acc o.end_date (o.filed, o.val.getD 0)) d fs p hg hp
    rcases hrec with ⟨fs₀, hmem, hp₀⟩ | ⟨o', ho', he, hpv⟩
    · rcases mem_insertGroup acc o.end_date (o.filed, o.val.getD 0) d fs₀ p
        hmem hp₀ with ⟨fs₁, h1, h2⟩ | ⟨hd, hp'⟩
      · exact .inl ⟨fs₁, h1, h2⟩
      · exact .inr ⟨o, List.mem_cons_self _ _, hd.symm, hp'⟩
    · exact .inr ⟨o', List.mem_cons_of_mem _ ho', he, hpv⟩

/-- Every pair inside a `groupByEnd` group comes from an observation of the
input list with that end date. -/
theorem groupByEnd_mem {l : List RawObservation} {d : String}
    {fs : List (String × Int)} {p : String × Int}
    (hg : (d, fs) ∈ groupByEnd l) (hp : p ∈ fs) :
    ∃ o ∈ l, o.end_date = d ∧ p = (o.filed, o.val.getD 0) := by
  rcases groupByEnd_go_mem l [] d fs p hg hp with ⟨fs₀, h, _⟩ | h
  · simp at h
  · exact h

/-- Every resolved pair of `extractEntries` comes from an input observation
that passed the filters, has the pair's end date, and supplies its value. -/
theorem extractEntries_mem {q : Bool} {entries : List RawObservation}
    {d : String} {v : Int} (h : (d, v) ∈ extractEntries q entries) :
    ∃ o ∈ entries, passesFilters q o = true ∧ o.end_date = d ∧
      v = o.val.getD 0 := by
  unfold extractEntries at h
  rw [List.mem_filterMap] at h
  obtain ⟨⟨d', fs⟩, hg, hv⟩ := h
  cases hd : dedupe fs with
  | none => rw [hd] at hv; simp at hv
  | some v' =>
    rw [hd] at hv
    simp at hv
    obtain ⟨rfl, rfl⟩ := hv
    have hfs : fs ≠ [] := by
      rintro rfl
      simp [dedupe, sortFiledDesc] at hd
    obtain ⟨w, hwmem, hwded, _⟩ := dedupe_max_filed hfs
    rw [hd] at hwded
    obtain ⟨o, ho, hoe, hop⟩ := groupByEnd_mem hg hwmem
    have hof := List.mem_filter.mp ho
    refine ⟨o, hof.1, hof.2, hoe, ?_⟩
    have : w.2 = o.val.getD 0 := by rw [hop]
    rw [← this]
    exact Option.some.injEq .. ▸ hwded

/-- Every pair of a concept's fragment comes from the entry list of the
selected unit of a concept present in the fact set. -/
theorem conceptFragment_mem {q : Bool} {facts : Facts} {c d : String} {v : Int}
    (h : (d, v) ∈ conceptFragment q facts c) :
    ∃ units key, facts.lookup c = some units ∧ selectUnitKey units = some key ∧
      (d, v) ∈ extractEntries q ((units.lookup key).getD []) := by
  rcases hl : facts.lookup c with _ | units
  · simp [conceptFragment, hl] at h
  · rcases hk : selectUnitKey units with _ | key
    · simp [conceptFragment, extractConcept, hl, hk] at h
    · refine ⟨units, key, rfl, hk, ?_⟩
      simpa [conceptFragment, extractConcept, hl, hk] using h

/-- The synonym loop either resolves nothing, or its result is exactly the
fragment of the first synonym with a non-empty fragment: every earlier
synonym's fragment is empty (absent concept included) and nothing from any
later synonym is consulted. -/
theorem resolveField_cases (q : Bool) (facts : Facts) :
    ∀ (cs : List String),
      resolveField q facts cs = [] ∨
      ∃ pre c post, cs = pre ++ c :: post ∧
        (∀ c' ∈ pre, conceptFragment q facts c' = []) ∧
        conceptFragment q facts c ≠ [] ∧
        resolveField q facts cs = conceptFragment q facts c
  | [] => .inl rfl
  | c :: rest => by
    cases hl : facts.lookup c with
    | none =>
      rcases resolveField_cases q facts rest with h |
        ⟨pre, c', post, heq, hpre, hc', hres⟩
      · left
        simpa [resolveField, hl] using h
      · right
        refine ⟨c :: pre, c', post, by rw [heq]; rfl, ?_, hc', ?_⟩
        · intro x hx
          rcases List.mem_cons.mp hx with rfl | hx'
          · simp [conceptFragment, hl]
          · exact hpre x hx'
        · simpa [resolveField, hl] using hres
    | some units =>
      by_cases he : (extractConcept q units).isEmpty = true
      · have hfrag : conceptFragment q facts c = [] := by
          simp [conceptFragment, hl, List.isEmpty_iff.mp he]
        rcases resolveField_cases q facts rest with h |
          ⟨pre, c', post, heq, hpre, hc', hres⟩
        · left
          simpa [resolveField, hl, he] using h
        · right
          refine ⟨c :: pre, c', post, by rw [heq]; rfl, ?_, hc', ?_⟩
          · intro x hx
            rcases List.mem_cons.mp hx with rfl | hx'
            · exact hfrag
            · exact hpre x hx'
          · simpa [resolveField, hl, he] using hres
      · right
        refine ⟨[], c, rest, rfl, by simp, ?_, ?_⟩
        · simp [conceptFragment, hl]
          exact fun hnil => he (by simp [hnil])
        · simp [resolveField, hl, he, conceptFragment]

/-- Every pair a field resolves comes from the fragment of one synonym. -/
theorem resolveField_mem {q : Bool} {facts : Facts} {cs : List String}
    {d : String} {v : Int} (h : (d, v) ∈ resolveField q facts cs) :
    ∃ c ∈ cs, (d, v) ∈ conceptFragment q facts c := by
  rcases resolveField_cases q facts cs with h0 |
    ⟨pre, c, post, heq, _, _, hres⟩
  · rw [h0] at h; simp at h
  · rw [hres] at h
    exact ⟨c, by rw [heq]; simp, h⟩

/-! ### Facts about the per-entry filter -/

theorem strptime_empty : strptime "" = none := rfl

theorem passesFilters_form {q : Bool} {o : RawObservation}
    (h : passesFilters q o = true) : o.form = form_filter q := by
  by_cases hf : o.form = form_filter q
  · exact hf
  · have hb : (o.form != form_filter q) = true := by simp [hf]
    simp [passesFilters, hb] at h

theorem passesFilters_end_ne {q : Bool} {o : RawObservation}
    (h : passesFilters q o = true) : o.end_date ≠ "" := by
  intro he
  by_cases hf : (o.form != form_filter q) = true
  · simp [passesFilters, hf] at h
  · simp [passesFilters, hf, he] at h

theorem passesFilters_form_ne {q : Bool} {o : RawObservation}
    (h : o.form ≠ form_filter q) : passesFilters q o = false := by
  have hb : (o.form != form_filter q) = true := by simp [h]
  simp [passesFilters, hb]

theorem passesFilters_end_empty {q : Bool} {o : RawObservation}
    (h : o.end_date = "") : passesFilters q o = false := by
  by_cases hf : (o.form != form_filter q) = true
  · simp [passesFilters, hf]
  · simp [passesFilters, hf, h]

theorem passesFilters_annual_short {o : RawObservation} {s e : Date}
    (hs : strptime o.start_date = some s) (he : strptime o.end_date = some e)
    (hdur : dateDiffDays s e < 350) : passesFilters false o = false := by
  by_cases hf : (o.form != form_filter false) = true
  · simp [passesFilters, hf]
  · by_cases hend : (o.end_date == "") = true
    · simp [passesFilters, hf, hend]
    · have hst : (o.start_date != "") = true := by
        have : o.start_date ≠ "" := by
          intro h0
          rw [h0, strptime_empty] at hs
          cases hs
        simp [this]
      have hen : (o.end_date != "") = true := by
        simpa using hend
      simp [passesFilters, hf, hend, hst, hen, hs, he, hdur]

theorem passesFilters_annual_lenient {o : RawObservation}
    (hform : o.form = "10-K") (hend : o.end_date ≠ "")
    (hpar : strptime o.start_date = none ∨ strptime o.end_date = none) :
    passesFilters false o = true := by
  have hf : (o.form != form_filter false) = false := by
    simp [hform, form_filter]
  have hen : (o.end_date == "") = false := by simp [hend]
  by_cases hst : (o.start_date != "") = true
  · rcases hpar with hp | hp <;>
      · cases h1 : strptime o.start_date <;> cases h2 : strptime o.end_date <;>
          simp_all [passesFilters, hf, hen, hst]
  · simp [passesFilters, hf, hen, hst]

theorem passesFilters_quarterly {o : RawObservation}
    (hform : o.form = "10-Q") (hend : o.end_date ≠ "") :
    passesFilters true o = true := by
  have hf : (o.form != form_filter true) = false := by
    simp [hform, form_filter]
  have hen : (o.end_date == "") = false := by simp [hend]
  simp [passesFilters, hf, hen]

theorem extractEntries_nil (q : Bool) : extractEntries q [] = [] := rfl

theorem extractEntries_single_dropped {q : Bool} {o : RawObservation}
    (h : passesFilters q o = false) : extractEntries q [o] = [] := by
  simp [extractEntries, List.filter, h, groupByEnd]

/-- A concept holding a single observation that the filters drop resolves
to nothing, whatever its unit label. -/
theorem extractConcept_single_dropped {q : Bool} {u : String}
    {o : RawObservation} (h : passesFilters q o = false) :
    extractConcept q [(u, [o])] = [] := by
  unfold extractConcept
  cases hk : selectUnitKey [(u, [o])] with
  | none => rfl
  | some key =>
    by_cases hu : key == u
    · simp [List.lookup, hu, extractEntries_single_dropped h]
    · simp [List.lookup, hu, extractEntries_nil]

/-! ### First-synonym-wins helpers -/

theorem resolveField_first_nonempty (q : Bool) (facts : Facts) (c : String)
    (post : List String) :
    ∀ (pre : List String), (∀ c' ∈ pre, conceptFragment q facts c' = []) →
      conceptFragment q facts c ≠ [] →
      resolveField q facts (pre ++ c :: post) = conceptFragment q facts c
  | [], _, hc => by
    cases hl : facts.lookup c with
    | none => exact absurd (by simp [conceptFragment, hl]) hc
    | some units =>
      have hcf : conceptFragment q facts c = extractConcept q units := by
        simp [conceptFragment, hl]
      have hnn : extractConcept q units ≠ [] := by rwa [hcf] at hc
      have hne : (extractConcept q units).isEmpty = false := by
        cases hE : (extractConcept q units).isEmpty
        · rfl
        · exact absurd (List.isEmpty_iff.mp hE) hnn
      simp [resolveField, hl, hne, hcf]
  | p :: pre, hpre, hc => by
    have hp := hpre p (List.mem_cons_self p _)
    have hrec := resolveField_first_nonempty q facts c post pre
      (fun x hx => hpre x (List.mem_cons_of_mem _ hx)) hc
    cases hl : facts.lookup p with
    | none =>
      simpa [resolveField, hl] using hrec
    | some units =>
      have he : (extractConcept q units).isEmpty = true := by
        have hcf : conceptFragment q facts p = extractConcept q units := by
          simp [conceptFragment, hl]
        rw [hcf] at hp
        simp [hp]
      simpa [resolveField, hl, he] using hrec

theorem resolveField_all_empty (q : Bool) (facts : Facts) :
    ∀ (cs : List String), (∀ c' ∈ cs, conceptFragment q facts c' = []) →
      resolveField q facts cs = []
  | [], _ => rfl
  | c :: rest, h => by
    have hc := h c (List.mem_cons_self c _)
    have hrec := resolveField_all_empty q facts rest
      (fun x hx => h x (List.mem_cons_of_mem _ hx))
    cases hl : facts.lookup c with
    | none => simpa [resolveField, hl] using hrec
    | some units =>
      have he : (extractConcept q units).isEmpty = true := by
        have hcf : conceptFragment q facts c = extractConcept q units := by
          simp [conceptFragment, hl]
        rw [hcf] at hc
        simp [hc]
      simpa [resolveField, hl, he] using hrec

/-! ### The claims -/

/-- C1: resolution tries a field's synonyms in declaration order; the first
synonym whose fragment is non-empty wins entirely (later synonyms are never
consulted, so no merging occurs), synonyms that are absent or yield an empty
fragment are skipped, and when every synonym yields an empty fragment the
field resolves to nothing. -/
theorem C1_first_synonym_wins :
    (∀ (q : Bool) (facts : Facts) (pre : List String) (c : String)
      (post : List String),
      (∀ c' ∈ pre, conceptFragment q facts c' = []) →
      conceptFragment q facts c ≠ [] →
      resolveField q facts (pre ++ c :: post) = conceptFragment q facts c) ∧
    (∀ (q : Bool) (facts : Facts) (cs : List String),
      (∀ c' ∈ cs, conceptFragment q facts c' = []) →
      resolveField q facts cs = []) :=
  ⟨fun q facts pre c post hpre hc =>
      resolveField_first_nonempty q facts c post pre hpre hc,
    fun q facts cs h => resolveField_all_empty q facts cs h⟩

theorem C1_witness :
    conceptFragment false factsC1 "Revenues" = [("2020-09-26", 274515000000)] ∧
    resolveField false factsC1
        ("Revenues" :: ["RevenueFromContractWithCustomerExcludingAssessedTax"]) =
      conceptFragment false factsC1 "Revenues" :=
  ⟨by decide,
    C1_first_synonym_wins.1 false factsC1 [] "Revenues"
      ["RevenueFromContractWithCustomerExcludingAssessedTax"]
      (by simp) (by decide)⟩

/-- C2: within one end-date group, the resolved value is the value of the
entry with the lexically greatest filed date: whenever one entry's filed
date is strictly above all others', that entry wins whatever the input
order, and in general (ties included) the winner is a member of the group
whose filed date is not below any other member's — and `dedupe` is a
function of the group, so the outcome is deterministic. -/
theorem C2_latest_filed_wins :
    (∀ (filings : List (String × Int)) (w : String × Int),
      w ∈ filings → (∀ x ∈ filings, x ≠ w → strLt x.1 w.1 = true) →
      dedupe filings = some w.2) ∧
    (∀ (filings : List (String × Int)), filings ≠ [] →
      ∃ w ∈ filings, dedupe filings = some w.2 ∧
        ∀ x ∈ filings, strLt w.1 x.1 = false) :=
  ⟨fun _ _ hmem hmax => dedupe_of_strict_max hmem hmax,
    fun _ hne => dedupe_max_filed hne⟩

theorem C2_witness :
    dedupe [("2023-10-01", 999999999999), ("2023-11-03", 352583000000)] =
      some 352583000000 ∧
    dedupe [("2023-11-03", 352583000000), ("2023-10-01", 999999999999)] =
      some 352583000000 :=
  ⟨C2_latest_filed_wins.1 _ ("2023-11-03", 352583000000) (by decide) (by decide),
    C2_latest_filed_wins.1 _ ("2023-11-03", 352583000000) (by decide) (by decide)⟩

/-- C3: in annual mode an observation whose start and end dates both parse
with a duration under 350 days is dropped — even when it is a concept's
only observation — while observations with missing or unparseable dates are
kept by this step, and quarterly mode applies no duration check at all. -/
theorem C3_duration_filter :
    (∀ (o : RawObservation) (s e : Date), strptime o.start_date = some s →
      strptime o.end_date = some e → dateDiffDays s e < 350 →
      passesFilters false o = false) ∧
    (∀ (u : String) (o : RawObservation) (s e : Date),
      strptime o.start_date = some s → strptime o.end_date = some e →
      dateDiffDays s e < 350 → extractConcept false [(u, [o])] = []) ∧
    (∀ (o : RawObservation), o.form = "10-K" → o.end_date ≠ "" →
      (strptime o.start_date = none ∨ strptime o.end_date = none) →
      passesFilters false o = true) ∧
    (∀ (o : RawObservation), o.form = "10-Q" → o.end_date ≠ "" →
      passesFilters true o = true) :=
  ⟨fun _ _ _ hs he hd => passesFilters_annual_short hs he hd,
    fun _ _ _ _ hs he hd =>
      extractConcept_single_dropped (passesFilters_annual_short hs he hd),
    fun _ hf he hp => passesFilters_annual_lenient hf he hp,
    fun _ hf he => passesFilters_quarterly hf he⟩

theorem C3_witness :
    passesFilters false ⟨"2023-01-01", "2023-06-30", some 5, "10-K", "2023-07-15"⟩ = false ∧
    extractConcept false
      [("USD", [⟨"2023-01-01", "2023-06-30", some 5, "10-K", "2023-07-15"⟩])] = [] ∧
    passesFilters false ⟨"garbage", "2023-09-30", some 5, "10-K", "2023-11-03"⟩ = true ∧
    passesFilters true ⟨"2023-04-01", "2023-06-30", some 5, "10-Q", "2023-07-15"⟩ = true :=
  ⟨C3_duration_filter.1 _ ⟨2023, 1, 1⟩ ⟨2023, 6, 30⟩ (by decide) (by decide) (by decide),
    C3_duration_filter.2.1 "USD" _ ⟨2023, 1, 1⟩ ⟨2023, 6, 30⟩ (by decide) (by decide)
      (by decide),
    C3_duration_filter.2.2.1 _ (by decide) (by decide) (.inl (by decide)),
    C3_duration_filter.2.2.2 _ (by decide) (by decide)⟩

theorem extractConcept_mem {q : Bool} {units : UnitGroups} {d : String} {v : Int}
    (h : (d, v) ∈ extractConcept q units) :
    ∃ key, selectUnitKey units = some key ∧
      (d, v) ∈ extractEntries q ((units.lookup key).getD []) := by
  rcases hk : selectUnitKey units with _ | key
  · simp [extractConcept, hk] at h
  · exact ⟨key, rfl, by simpa [extractConcept, hk] using h⟩

/-- C4: the filing-type filter keeps exactly the observations whose form
string equals "10-Q" (quarterly request) or "10-K" (annual request): any
other form is dropped, every survivor carries the exact form string, and
every resolved pair of a concept traces back to an entry of the selected
unit with the exact form and that end date. -/
theorem C4_form_filter :
    (∀ (q : Bool) (o : RawObservation), o.form ≠ form_filter q →
      passesFilters q o = false) ∧
    (∀ (q : Bool) (o : RawObservation), passesFilters q o = true →
      o.form = form_filter q) ∧
    (∀ (q : Bool) (units : UnitGroups) (d : String) (v : Int),
      (d, v) ∈ extractConcept q units →
      ∃ key o, selectUnitKey units = some key ∧
        o ∈ (units.lookup key).getD [] ∧ o.form = form_filter q ∧
        o.end_date = d) :=
  ⟨fun _ _ h => passesFilters_form_ne h,
    fun _ _ h => passesFilters_form h,
    fun q units d v h => by
      obtain ⟨key, hk, hmem⟩ := extractConcept_mem h
      obtain ⟨o, ho, hpass, hend, _⟩ := extractEntries_mem hmem
      exact ⟨key, o, hk, ho, passesFilters_form hpass, hend⟩⟩

theorem C4_witness :
    passesFilters true
      ⟨"2022-10-01", "2023-09-30", some 100, "10-K", "2023-11-03"⟩ = false ∧
    (⟨"2023-04-01", "2023-06-30", some 25, "10-Q", "2023-08-01"⟩ :
      RawObservation).form = form_filter true ∧
    (∃ key o, selectUnitKey unitsC4 = some key ∧
      o ∈ (unitsC4.lookup key).getD [] ∧ o.form = form_filter true ∧
      o.end_date = "2023-06-30") :=
  ⟨C4_form_filter.1 true _ (by decide),
    C4_form_filter.2.1 true _ (by decide),
    C4_form_filter.2.2 true unitsC4 "2023-06-30" 25 (by decide)⟩

theorem selectUnitKey_some_cases {units : UnitGroups} {key : String}
    (h : selectUnitKey units = some key) :
    (key = "USD" ∧ (units.lookup "USD").isSome = true) ∨
    (key = "USD/shares" ∧ (units.lookup "USD").isSome = false ∧
      (units.lookup "USD/shares").isSome = true) ∨
    (key = "shares" ∧ (units.lookup "USD").isSome = false ∧
      (units.lookup "USD/shares").isSome = false ∧
      (units.lookup "shares").isSome = true) ∨
    (key = "pure" ∧ (units.lookup "USD").isSome = false ∧
      (units.lookup "USD/shares").isSome = false ∧
      (units.lookup "shares").isSome = false ∧
      (units.lookup "pure").isSome = true) := by
  rw [selectUnitKey, unitPriority] at h
  by_cases h1 : (units.lookup "USD").isSome = true
  · left
    simp only [List.find?, h1, Option.some.injEq] at h
    exact ⟨h.symm, h1⟩
  · have h1' : (units.lookup "USD").isSome = false := by rwa [Bool.not_eq_true] at h1
    by_cases h2 : (units.lookup "USD/shares").isSome = true
    · right; left
      simp only [List.find?, h1', h2, Option.some.injEq] at h
      exact ⟨h.symm, h1', h2⟩
    · have h2' : (units.lookup "USD/shares").isSome = false := by rwa [Bool.not_eq_true] at h2
      by_cases h3 : (units.lookup "shares").isSome = true
      · right; right; left
        simp only [List.find?, h1', h2', h3, Option.some.injEq] at h
        exact ⟨h.symm, h1', h2', h3⟩
      · have h3' : (units.lookup "shares").isSome = false := by rwa [Bool.not_eq_true] at h3
        by_cases h4 : (units.lookup "pure").isSome = true
        · right; right; right
          simp only [List.find?, h1', h2', h3', h4, Option.some.injEq] at h
          exact ⟨h.symm, h1', h2', h3', h4⟩
        · have h4' : (units.lookup "pure").isSome = false := by rwa [Bool.not_eq_true] at h4
          simp [List.find?, h1', h2', h3', h4'] at h

/-- C5: exactly the first unit label present in the fixed priority order
USD, USD/shares, shares, pure is selected; extraction then reads only that
unit's entries; when none of the four labels is present the concept yields
nothing and the synonym loop moves on. -/
theorem C5_unit_priority :
    (∀ (units : UnitGroups) (key : String), selectUnitKey units = some key →
      (key = "USD" ∧ (units.lookup "USD").isSome = true) ∨
      (key = "USD/shares" ∧ (units.lookup "USD").isSome = false ∧
        (units.lookup "USD/shares").isSome = true) ∨
      (key = "shares" ∧ (units.lookup "USD").isSome = false ∧
        (units.lookup "USD/shares").isSome = false ∧
        (units.lookup "shares").isSome = true) ∨
      (key = "pure" ∧ (units.lookup "USD").isSome = false ∧
        (units.lookup "USD/shares").isSome = false ∧
        (units.lookup "shares").isSome = false ∧
        (units.lookup "pure").isSome = true)) ∧
    (∀ (q : Bool) (units : UnitGroups) (key : String),
      selectUnitKey units = some key →
      extractConcept q units = extractEntries q ((units.lookup key).getD [])) ∧
    (∀ (q : Bool) (units : UnitGroups), selectUnitKey units = none →
      extractConcept q units = []) ∧
    (∀ (units : UnitGroups), selectUnitKey units = none ↔
      ∀ k ∈ unitPriority, (units.lookup k).isSome = false) ∧
    (∀ (q : Bool) (facts : Facts) (c : String) (units : UnitGroups)
      (rest : List String), facts.lookup c = some units →
      selectUnitKey units = none →
      resolveField q facts (c :: rest) = resolveField q facts rest) :=
  ⟨fun _ _ h => selectUnitKey_some_cases h,
    fun q units key h => by simp [extractConcept, h],
    fun q units h => by simp [extractConcept, h],
    fun units => by
      rw [selectUnitKey, List.find?_eq_none]
      constructor
      · intro h k hk
        have hn := h k hk
        rwa [Bool.not_eq_true] at hn
      · intro h k hk
        rw [h k hk]
        simp,
    fun q facts c units rest hl hk => by
      have he : extractConcept q units = [] := by simp [extractConcept, hk]
      simp [resolveField, hl, he]⟩

theorem C5_witness :
    extractConcept false unitsC5 =
      extractEntries false ((unitsC5.lookup "USD").getD []) ∧
    resolveField false [("X", unitsC5n)] ["X"] =
      resolveField false [("X", unitsC5n)] [] :=
  ⟨C5_unit_priority.2.1 false unitsC5 "USD" (by decide),
    C5_unit_priority.2.2.2.2 false [("X", unitsC5n)] "X" unitsC5n []
      (by decide) (by decide)⟩

/-- C9: an observation whose end date is missing or empty is dropped in
either mode, before and independently of the duration step, and no empty
end date can ever appear as a key of any resolved series. -/
theorem C9_empty_end_dropped :
    (∀ (q : Bool) (o : RawObservation), o.end_date = "" →
      passesFilters q o = false) ∧
    (∀ (q : Bool) (facts : Facts) (cs : List String) (d : String) (v : Int),
      (d, v) ∈ resolveField q facts cs → d ≠ "") :=
  ⟨fun _ _ h => passesFilters_end_empty h,
    fun q facts cs d v h => by
      obtain ⟨c, _, hfrag⟩ := resolveField_mem h
      obtain ⟨units, key, _, _, hmem⟩ := conceptFragment_mem hfrag
      obtain ⟨o, _, hpass, hend, _⟩ := extractEntries_mem hmem
      rw [← hend]
      exact passesFilters_end_ne hpass⟩

theorem C9_witness :
    passesFilters false ⟨"2022-10-01", "", some 5, "10-K", "2023-11-03"⟩ = false ∧
    ("2023-09-30" : String) ≠ "" :=
  ⟨C9_empty_end_dropped.1 false _ (by decide),
    C9_empty_end_dropped.2 false factsC9 ["Assets"] "2023-09-30" 5 (by decide)⟩

/-! ### Missing values default to zero -/

theorem extractEntries_with_val (q : Bool) (l : List RawObservation) :
    extractEntries q (l.map with_val_default) = extractEntries q l := by
  unfold extractEntries
  have hfil : (l.map with_val_default).filter (passesFilters q) =
      (l.filter (passesFilters q)).map with_val_default := by
    rw [List.filter_map]
    rfl
  rw [hfil]
  have hgrp : groupByEnd ((l.filter (passesFilters q)).map with_val_default) =
      groupByEnd (l.filter (passesFilters q)) := by
    unfold groupByEnd
    rw [List.foldl_map]
    rfl
  rw [hgrp]

theorem extractEntries_single_none {q : Bool} {o : RawObservation}
    (hv : o.val = none) (hp : passesFilters q o = true) :
    extractEntries q [o] = [(o.end_date, 0)] := by
  simp [extractEntries, List.filter, hp, groupByEnd, insertGroup, dedupe,
    sortFiledDesc, insertFiledDesc, hv]

theorem extractEntries_pair_none {q : Bool} {o o' : RawObservation}
    (hv : o.val = none) (hend : o'.end_date = o.end_date)
    (hp : passesFilters q o = true) (hp' : passesFilters q o' = true)
    (hf : strLt o'.filed o.filed = true) :
    extractEntries q [o, o'] = [(o.end_date, 0)] := by
  have hgroups : groupByEnd ([o, o'].filter (passesFilters q)) =
      [(o.end_date, [(o.filed, 0), (o'.filed, o'.val.getD 0)])] := by
    simp [List.filter, hp, hp', groupByEnd, insertGroup, hend, hv]
  have hd : dedupe [(o.filed, 0), (o'.filed, o'.val.getD 0)] = some 0 := by
    have hded := dedupe_of_strict_max
      (l := [(o.filed, 0), (o'.filed, o'.val.getD 0)])
      (w := (o.filed, (0 : Int))) (by simp) ?_
    · exact hded
    · intro x hx hne
      rcases List.mem_cons.mp hx with rfl | hx'
      · exact absurd rfl hne
      · rcases List.mem_cons.mp hx' with rfl | hx''
        · exact hf
        · simp at hx''
  unfold extractEntries
  rw [hgroups]
  simp [hd]

/-- C10: a surviving observation with no value field contributes the value
`0`: making every missing value an explicit `0` leaves all resolution
output unchanged, a value-less lone observation resolves to `0`, and a
value-less observation with the latest filed date of its period wins
deduplication and makes the period resolve to `0`. -/
theorem C10_missing_value_zero :
    (∀ (q : Bool) (entries : List RawObservation),
      extractEntries q (entries.map with_val_default) =
        extractEntries q entries) ∧
    (∀ (q : Bool) (o : RawObservation), o.val = none →
      passesFilters q o = true → extractEntries q [o] = [(o.end_date, 0)]) ∧
    (∀ (q : Bool) (o o' : RawObservation), o.val = none →
      o'.end_date = o.end_date → passesFilters q o = true →
      passesFilters q o' = true → strLt o'.filed o.filed = true →
      extractEntries q [o, o'] = [(o.end_date, 0)]) :=
  ⟨fun q l => extractEntries_with_val q l,
    fun _ _ hv hp => extractEntries_single_none hv hp,
    fun _ _ _ hv hend hp hp' hf =>
      extractEntries_pair_none hv hend hp hp' hf⟩

theorem C10_witness :
    extractEntries false
      [⟨"2022-10-01", "2023-09-30", none, "10-K", "2023-11-03"⟩,
       ⟨"2022-10-02", "2023-09-30", some 7, "10-K", "2023-10-01"⟩] =
      [("2023-09-30", 0)] :=
  C10_missing_value_zero.2.2 false
    ⟨"2022-10-01", "2023-09-30", none, "10-K", "2023-11-03"⟩
    ⟨"2022-10-02", "2023-09-30", some 7, "10-K", "2023-10-01"⟩
    (by decide) (by decide) (by decide) (by decide) (by decide)

/-! ### The sorted date axis -/

theorem mem_insertAsc (d a : String) :
    ∀ (l : List String), a ∈ insertAsc d l ↔ a = d ∨ a ∈ l
  | [] => by simp [insertAsc]
  | y :: ys => by
    by_cases h : strLt y d = true
    · simp [insertAsc, h, mem_insertAsc d a ys]
      tauto
    · simp [insertAsc, h]

theorem insertAsc_perm (d : String) :
    ∀ (l : List String), (insertAsc d l).Perm (d :: l)
  | [] => List.Perm.refl _
  | y :: ys => by
    by_cases h : strLt y d = true
    · simp only [insertAsc, h, if_true]
      exact ((insertAsc_perm d ys).cons y).trans (List.Perm.swap d y ys)
    · simp [insertAsc, h]

theorem sortAsc_perm : ∀ (l : List String), (sortAsc l).Perm l
  | [] => List.Perm.refl _
  | x :: xs => (insertAsc_perm x (sortAsc xs)).trans ((sortAsc_perm xs).cons x)

theorem mem_sortAsc (a : String) (l : List String) : a ∈ sortAsc l ↔ a ∈ l :=
  (sortAsc_perm l).mem_iff

theorem insertAsc_pairwise (d : String) :
    ∀ (l : List String), l.Pairwise (fun a b => strLt b a = false) →
      (insertAsc d l).Pairwise (fun a b => strLt b a = false)
  | [], _ => by simp [insertAsc]
  | y :: ys, h => by
    obtain ⟨hy, hys⟩ := List.pairwise_cons.mp h
    by_cases hc : strLt y d = true
    · simp only [insertAsc, hc, if_true]
      rw [List.pairwise_cons]
      refine ⟨?_, insertAsc_pairwise d ys hys⟩
      intro z hz
      rcases (mem_insertAsc d z ys).mp hz with rfl | hz'
      · exact strLt_asymm hc
      · exact hy z hz'
    · have hc' : strLt y d = false := by rwa [Bool.not_eq_true] at hc
      have hins : insertAsc d (y :: ys) = d :: y :: ys := by
        simp [insertAsc, hc']
      rw [hins, List.pairwise_cons]
      refine ⟨?_, h⟩
      intro z hz
      rcases List.mem_cons.mp hz with rfl | hz'
      · exact hc'
      · exact strLt_ge_trans (hy z hz') hc'

theorem sortAsc_pairwise :
    ∀ (l : List String), (sortAsc l).Pairwise (fun a b => strLt b a = false)
  | [] => by simp [sortAsc]
  | x :: xs => insertAsc_pairwise x (sortAsc xs) (sortAsc_pairwise xs)

theorem sortAsc_nodup {l : List String} (h : l.Nodup) : (sortAsc l).Nodup :=
  (sortAsc_perm l).nodup_iff.mpr h

/-- A sorted, duplicate-free string list is strictly ascending. -/
theorem pairwise_strLt {l : List String}
    (hs : l.Pairwise (fun a b => strLt b a = false)) (hn : l.Nodup) :
    l.Pairwise (fun a b => strLt a b = true) := by
  have hcomb := List.Pairwise.and hs hn
  refine hcomb.imp ?_
  intro a b hab
  obtain ⟨h1, h2⟩ := hab
  cases hc : strLt a b
  · exact absurd (strLt_conn hc h1) h2
  · rfl

theorem sorted_dates_nodup (items : List (String × List (String × Int))) :
    (sorted_dates items).Nodup :=
  sortAsc_nodup (List.nodup_dedup _)

theorem sorted_dates_ascending (items : List (String × List (String × Int))) :
    (sorted_dates items).Pairwise (fun a b => strLt a b = true) :=
  pairwise_strLt (sortAsc_pairwise _) (sorted_dates_nodup items)

theorem mem_sorted_dates (d : String)
    (items : List (String × List (String × Int))) :
    d ∈ sorted_dates items ↔ ∃ p ∈ items, d ∈ p.2.map Prod.fst := by
  rw [sorted_dates, mem_sortAsc, all_dates, List.mem_dedup, List.mem_flatten]
  constructor
  · rintro ⟨l, hl, hd⟩
    obtain ⟨p, hp, rfl⟩ := List.mem_map.mp hl
    exact ⟨p, hp, hd⟩
  · rintro ⟨p, hp, hd⟩
    exact ⟨p.2.map Prod.fst, List.mem_map.mpr ⟨p, hp, rfl⟩, hd⟩

/-- C6: in the date-indexed frame the assembler builds (before the period
relabelling that C8 covers), the rows are the canonical fields in the
dictionary's declaration order, every row carries exactly the sorted union
of all end dates as its columns, a cell holds the field's resolved value or
`0` when the field has no entry for that date, a field with an empty series
yields an all-zero row, and the column axis is strictly ascending. -/
theorem C6_table_invariants :
    (∀ (items : List (String × List (String × Int))),
      (buildData items).map Prod.fst = items.map Prod.fst) ∧
    (∀ (facts : Facts) (cm : List (String × List String)) (q : Bool),
      (_extract_financial_items facts cm q).map Prod.fst = cm.map Prod.fst) ∧
    (∀ (items : List (String × List (String × Int))) (f : String)
      (cells : List (String × Int)), (f, cells) ∈ buildData items →
      cells.map Prod.fst = sorted_dates items) ∧
    (∀ (items : List (String × List (String × Int))) (d : String),
      d ∈ sorted_dates items ↔ ∃ p ∈ items, d ∈ p.2.map Prod.fst) ∧
    (∀ (items : List (String × List (String × Int))) (f : String)
      (s : List (String × Int)), (f, s) ∈ items →
      (f, (sorted_dates items).map (fun d => (d, (s.lookup d).getD 0))) ∈
        buildData items) ∧
    (∀ (items : List (String × List (String × Int))) (f : String),
      (f, ([] : List (String × Int))) ∈ items →
      ∃ cells, (f, cells) ∈ buildData items ∧
        cells.map Prod.fst = sorted_dates items ∧ ∀ c ∈ cells, c.2 = 0) ∧
    (∀ (items : List (String × List (String × Int))),
      (sorted_dates items).Pairwise (fun a b => strLt a b = true)) := by
  refine ⟨?_, ?_, ?_, ?_, ?_, ?_, ?_⟩
  · intro items
    simp [buildData, List.map_map, Function.comp]
  · intro facts cm q
    simp [_extract_financial_items, List.map_map, Function.comp]
  · intro items f cells h
    obtain ⟨p, _, heq⟩ := List.mem_map.mp h
    have hc : cells = (sorted_dates items).map
        (fun date => (date, (p.2.lookup date).getD 0)) :=
      ((Prod.mk.injEq .. ▸ heq : _ ∧ _).2).symm
    have hid : (Prod.fst ∘ fun date : String =>
        (date, ((p.2.lookup date).getD 0))) = id := rfl
    rw [hc, List.map_map, hid, List.map_id]
  · intro items d
    exact mem_sorted_dates d items
  · intro items f s h
    exact List.mem_map.mpr ⟨(f, s), h, rfl⟩
  · intro items f h
    refine ⟨(sorted_dates items).map (fun d => (d, ((0 : Int)))), ?_, ?_, ?_⟩
    · refine List.mem_map.mpr ⟨(f, ([] : List (String × Int))), h, ?_⟩
      rfl
    · have hid : (Prod.fst ∘ fun d : String => (d, (0 : Int))) = id := rfl
      rw [List.map_map, hid, List.map_id]
    · intro c hc
      obtain ⟨d, _, rfl⟩ := List.mem_map.mp hc
      rfl
  · intro items
    exact sorted_dates_ascending items

theorem C6_witness :
    ("2023-09-30" ∈ sorted_dates
        [("A", [("2023-09-30", (5 : Int))]), ("B", [])] ↔
      ∃ p ∈ [("A", [("2023-09-30", (5 : Int))]), ("B", [])],
        "2023-09-30" ∈ p.2.map Prod.fst) ∧
    (∃ cells, ("B", cells) ∈
        buildData [("A", [("2023-09-30", (5 : Int))]), ("B", [])] ∧
      cells.map Prod.fst =
        sorted_dates [("A", [("2023-09-30", (5 : Int))]), ("B", [])] ∧
      ∀ c ∈ cells, c.2 = 0) :=
  ⟨C6_table_invariants.2.2.2.1 [("A", [("2023-09-30", (5 : Int))]), ("B", [])]
      "2023-09-30",
    C6_table_invariants.2.2.2.2.2.1
      [("A", [("2023-09-30", (5 : Int))]), ("B", [])] "B" (by decide)⟩

/-- C7: a statement argument outside balance, income, cashflow makes the
retrieval fail immediately with the invalid-statement error — the same
error whatever the fact set, so no resolution work can influence it and no
partially built table is returned — while every valid statement argument
returns a result. -/
theorem C7_invalid_statement :
    (∀ (facts : Facts) (q fb : Bool) (s : String),
      s ∉ (["balance", "income", "cashflow"] : List String) →
      get_financial_statement facts s q fb =
        Except.error EdgarError.invalidStatement) ∧
    (∀ (facts : Facts) (q fb : Bool) (s : String),
      s ∈ (["balance", "income", "cashflow"] : List String) →
      ∃ out, get_financial_statement facts s q fb = Except.ok out) := by
  constructor
  · intro facts q fb s h
    rw [get_financial_statement, if_pos h]
  · intro facts q fb s h
    rw [get_financial_statement, if_neg (not_not_intro h)]
    dsimp only
    split
    · exact ⟨_, rfl⟩
    · exact ⟨_, rfl⟩

theorem C7_witness :
    get_financial_statement [] "invalid" false false =
      Except.error EdgarError.invalidStatement ∧
    ∃ out, get_financial_statement [] "income" false false = Except.ok out :=
  ⟨C7_invalid_statement.1 [] false false "invalid" (by decide),
    C7_invalid_statement.2 [] false false "income" (by decide)⟩

/-! ### Duplicate-period column dropping -/

theorem dedupLabelsAux_sublist (q : Bool) :
    ∀ (seen ds : List String), (dedupLabelsAux q seen ds).Sublist ds
  | _, [] => List.Sublist.refl _
  | seen, d :: rest => by
    by_cases hm : periodLabel q d ∈ seen
    · simp only [dedupLabelsAux, if_pos hm]
      exact (dedupLabelsAux_sublist q seen rest).trans (List.sublist_cons_self d rest)
    · simp only [dedupLabelsAux, if_neg hm]
      exact List.Sublist.cons₂ d (dedupLabelsAux_sublist q _ rest)

theorem dedupLabelsAux_mem_iff (q : Bool) (d : String) :
    ∀ (pre suf seen : List String), (pre ++ d :: suf).Nodup →
      (d ∈ dedupLabelsAux q seen (pre ++ d :: suf) ↔
        (periodLabel q d ∉ seen ∧ ∀ p ∈ pre, periodLabel q p ≠ periodLabel q d))
  | [], suf, seen => by
    intro hnd
    simp only [List.nil_append]
    by_cases hm : periodLabel q d ∈ seen
    · simp only [dedupLabelsAux, if_pos hm]
      constructor
      · intro hd
        exfalso
        have hmem : d ∈ suf := (dedupLabelsAux_sublist q seen suf).subset hd
        exact (List.nodup_cons.mp hnd).1 hmem
      · rintro ⟨h1, _⟩
        exact absurd hm h1
    · simp only [dedupLabelsAux, if_neg hm]
      simp [hm]
  | p :: pre, suf, seen => by
    intro hnd
    have hnd0 : (p :: (pre ++ d :: suf)).Nodup := by simpa using hnd
    have hnd' : (pre ++ d :: suf).Nodup := (List.nodup_cons.mp hnd0).2
    have hdp : d ≠ p := by
      intro hh
      apply (List.nodup_cons.mp hnd0).1
      rw [← hh]
      exact List.mem_append_right _ (List.mem_cons_self _ _)
    simp only [List.cons_append]
    by_cases hm : periodLabel q p ∈ seen
    · simp only [dedupLabelsAux, if_pos hm]
      rw [dedupLabelsAux_mem_iff q d pre suf seen hnd']
      constructor
      · rintro ⟨h1, h2⟩
        refine ⟨h1, ?_⟩
        intro x hx
        rcases List.mem_cons.mp hx with rfl | hx'
        · intro heq
          exact h1 (heq ▸ hm)
        · exact h2 x hx'
      · rintro ⟨h1, h2⟩
        exact ⟨h1, fun x hx => h2 x (List.mem_cons_of_mem _ hx)⟩
    · simp only [dedupLabelsAux, if_neg hm]
      rw [List.mem_cons,
        dedupLabelsAux_mem_iff q d pre suf (periodLabel q p :: seen) hnd']
      constructor
      · rintro (rfl | ⟨h1, h2⟩)
        · exact absurd rfl hdp
        · have h1' : periodLabel q d ∉ seen :=
            fun hh => h1 (List.mem_cons_of_mem _ hh)
          have h1p : periodLabel q p ≠ periodLabel q d := by
            intro hh
            exact h1 (by rw [← hh]; exact List.mem_cons_self _ _)
          refine ⟨h1', ?_⟩
          intro x hx
          rcases List.mem_cons.mp hx with rfl | hx'
          · exact h1p
          · exact h2 x hx'
      · rintro ⟨h1, h2⟩
        right
        refine ⟨?_, fun x hx => h2 x (List.mem_cons_of_mem _ hx)⟩
        intro hh
        rcases List.mem_cons.mp hh with heq | hseen
        · exact h2 p (List.mem_cons_self _ _) heq.symm
        · exact h1 hseen

theorem dedupLabelsAux_labels (q : Bool) :
    ∀ (seen ds : List String),
      (∀ l ∈ (dedupLabelsAux q seen ds).map (periodLabel q), l ∉ seen) ∧
      ((dedupLabelsAux q seen ds).map (periodLabel q)).Nodup
  | _, [] => ⟨by simp [dedupLabelsAux], by simp [dedupLabelsAux]⟩
  | seen, d :: rest => by
    by_cases hm : periodLabel q d ∈ seen
    · simpa only [dedupLabelsAux, if_pos hm] using
        dedupLabelsAux_labels q seen rest
    · simp only [dedupLabelsAux, if_neg hm, List.map_cons]
      obtain ⟨h1, h2⟩ := dedupLabelsAux_labels q (periodLabel q d :: seen) rest
      constructor
      · intro l hl
        rcases List.mem_cons.mp hl with rfl | hl'
        · exact hm
        · exact fun hs => h1 l hl' (List.mem_cons_of_mem _ hs)
      · rw [List.nodup_cons]
        exact ⟨fun hh => h1 _ hh (List.mem_cons_self _ _), h2⟩

/-- C8: when the sorted date columns are relabelled as periods, the columns
that survive the duplicate drop are an in-order sublist of the dates, a
date is kept exactly when no earlier date carries the same period label
(the first occurrence in ascending order wins), and the surviving columns'
labels are pairwise distinct — every later duplicate is silently gone. -/
theorem C8_duplicate_periods_dropped :
    (∀ (q : Bool) (ds : List String), (dedupByLabel q ds).Sublist ds) ∧
    (∀ (q : Bool) (pre : List String) (d : String) (suf : List String),
      (pre ++ d :: suf).Nodup →
      (d ∈ dedupByLabel q (pre ++ d :: suf) ↔
        ∀ p ∈ pre, periodLabel q p ≠ periodLabel q d)) ∧
    (∀ (q : Bool) (ds : List String),
      ((dedupByLabel q ds).map (periodLabel q)).Nodup) :=
  ⟨fun q ds => dedupLabelsAux_sublist q [] ds,
    fun q pre d suf h => by
      rw [dedupByLabel, dedupLabelsAux_mem_iff q d pre suf [] h]
      simp,
    fun q ds => (dedupLabelsAux_labels q [] ds).2⟩

theorem C8_witness :
    ("2020-12-31" : String) ∉ dedupByLabel false ["2020-03-31", "2020-12-31"] ∧
    "2020-03-31" ∈ dedupByLabel false ["2020-03-31", "2020-12-31"] :=
  ⟨fun h =>
    absurd
      ((C8_duplicate_periods_dropped.2.1 false ["2020-03-31"] "2020-12-31" []
          (by decide)).mp h "2020-03-31" (by decide))
      (by decide),
    (C8_duplicate_periods_dropped.2.1 false [] "2020-03-31" ["2020-12-31"]
        (by decide)).mpr (by simp)⟩
